import Mathlib

/-!
Verification development for a playlist-import script (main.py).

The script authenticates against a streaming service, loads two CSV
libraries, merges and deduplicates them by track name, resolves or
creates target playlists (case-insensitively), and adds each record's
best search match to its playlist unless an equally named track is
already present; records that cannot be placed are accumulated into an
unmatched report.

The shallow embedding below translates the script's pure logic into
Lean: CSV rows become lists of records, the remote service becomes an
explicit state (playlist membership lists) plus parameters for the
catalog search and server-side id assignment, and remote calls made by
the import engine are recorded in a ghost event trace so that claims
about which calls happen (fetch, search, add) can be stated.
-/

/-- Model of Python str.strip: drop whitespace from both ends. -/
def pyStrip (s : String) : String :=
  String.mk (((s.data.dropWhile Char.isWhitespace).reverse.dropWhile Char.isWhitespace).reverse)

/-- Model of Python str.lower: lowercase every character. -/
def pyLower (s : String) : String :=
  String.mk (s.data.map Char.toLower)

/-- One row of either input CSV: Playlist name, Track name, and the
Artist name cell; artistName is none when the merged frame has no
Artist name column at all (row.get then returns the default). -/
structure SourceRecord where
  playlistName : String
  trackName : String
  artistName : Option String
  deriving DecidableEq

/-- Python dict lookup for dicts represented as lists with the most
recent insertion first; first match wins, matching dict overwrite
semantics when inserts are modelled as prepends. -/
def dictLookup {α : Type} : List (String × α) → String → Option α
  | [], _ => none
  | (k, v) :: m, k2 => if k2 = k then some v else dictLookup m k2

/-- Key list of a dict modelled as an association list. -/
def dictKeys {α : Type} (m : List (String × α)) : List String :=
  m.map Prod.fst

/-- Auxiliary pass of drop_duplicates keep first: keep a row when its
Track name has not been seen before. -/
def dropDupAux : List String → List SourceRecord → List SourceRecord
  | _, [] => []
  | seen, r :: rs =>
    if r.trackName ∈ seen then dropDupAux seen rs
    else r :: dropDupAux (r.trackName :: seen) rs

/-- pandas drop_duplicates with subset Track name and keep first,
applied to the concatenated rows. -/
def dropDuplicatesByTrackName (rows : List SourceRecord) : List SourceRecord :=
  dropDupAux [] rows

/-- load_library from main.py: read both CSVs (their rows are the two
arguments, in on-disk order), concatenate, and drop duplicate Track
names keeping the first occurrence. -/
def load_library (tidal_rows spotify_rows : List SourceRecord) : List SourceRecord :=
  dropDuplicatesByTrackName (tidal_rows ++ spotify_rows)

/-- Written from the spec's words, for comparison with load_library:
every row whose Track name equals the Track name of an earlier row is
removed; the first occurrence survives and surviving rows keep their
relative order. -/
def specDedupFirstSeen : List SourceRecord → List SourceRecord
  | [] => []
  | r :: rs =>
    r :: specDedupFirstSeen (rs.filter (fun x => decide (x.trackName ≠ r.trackName)))
  termination_by l => l.length
  decreasing_by
    simp only [List.length_cons]
    exact Nat.lt_succ_of_le (List.length_filter_le _ _)

/-- A playlist on the remote service: its display name and its id. -/
structure RemotePlaylist where
  name : String
  id : Nat
  deriving DecidableEq

/-- A track returned by catalog search or playlist membership listing. -/
structure Track where
  id : Nat
  name : String
  deriving DecidableEq

/-- Result of get_or_create_playlists: the mapping from lowercased name
to playlist, plus the ghost list of names for which create_playlist was
actually invoked, in call order. -/
structure ResolveResult where
  mapping : List (String × RemotePlaylist)
  created : List String
  deriving DecidableEq

/-- The dict comprehension over user.playlists(): lowercased name maps
to the playlist object, later entries overwriting earlier ones (the
fold prepends, and dictLookup takes the first match). -/
def buildExisting (ups : List RemotePlaylist) : List (String × RemotePlaylist) :=
  ups.foldl (fun m p => (pyLower p.name, p) :: m) []

/-- Loop body of get_or_create_playlists: for each requested name, reuse
the existing playlist with the same lowercased name, else create one
with the exact requested name (the server assigns its id, modelled by
mkId) and record the creation. -/
def gocpGo (mkId : String → Nat) (existing : List (String × RemotePlaylist)) :
    List String → ResolveResult → ResolveResult
  | [], acc => acc
  | name :: rest, acc =>
    match dictLookup existing (pyLower name) with
    | some p => gocpGo mkId existing rest ⟨(pyLower name, p) :: acc.mapping, acc.created⟩
    | none =>
      gocpGo mkId existing rest
        ⟨(pyLower name, ⟨name, mkId name⟩) :: acc.mapping, acc.created ++ [name]⟩

/-- get_or_create_playlists from main.py: fetch the user's playlists
once, key them by lowercased name, then walk the requested names
reusing or creating. -/
def get_or_create_playlists (mkId : String → Nat) (userPlaylists : List RemotePlaylist)
    (playlist_names : List String) : ResolveResult :=
  gocpGo mkId (buildExisting userPlaylists) playlist_names ⟨[], []⟩

/-- One unmatched report row: the dict appended to not_found_tracks. -/
structure Unmatched where
  playlistName : String
  trackName : String
  artistName : String
  deriving DecidableEq

/-- Ghost trace of the remote calls the import engine makes while
iterating the records: a playlist membership listing, a catalog search
with the given query, or an addition of a track to a playlist. -/
inductive Event where
  | fetchTracks (playlistId : Nat)
  | searchCall (query : String)
  | addCall (playlistId : Nat) (track : Track)
  deriving DecidableEq

/-- Outcome of session.search for one query, as tested by the truthiness
chain in main.py: a falsy result object, a result without a tracks key,
or a tracks list (possibly empty, which is also falsy). -/
inductive SearchOutcome where
  | falsyResult
  | noTracksKey
  | tracks (l : List Track)
  deriving DecidableEq

/-- The first returned track, when the truthiness chain passes. -/
def firstTrack : SearchOutcome → Option Track
  | .tracks (t :: _) => some t
  | _ => none

/-- State threaded through the import loop: remote playlist membership
(playlist id to its member tracks, in playlist order), the accumulated
not_found_tracks list, and the ghost event trace. -/
structure EngineState where
  members : List (Nat × List Track)
  notFound : List Unmatched
  events : List Event
  deriving DecidableEq

/-- Current member tracks of a playlist; a playlist with no recorded
members (for example one just created) has an empty track list. -/
def membersOf (m : List (Nat × List Track)) (pid : Nat) : List Track :=
  match m with
  | [] => []
  | (k, ts) :: rest => if pid = k then ts else membersOf rest pid

/-- The set (here list) of lowercased member track names the engine
builds from playlist.tracks(); only membership in it is ever used. -/
def memberNamesLower (m : List (Nat × List Track)) (pid : Nat) : List String :=
  (membersOf m pid).map (fun t => pyLower t.name)

/-- playlist.add appends the track to the playlist's member list. -/
def addMember (m : List (Nat × List Track)) (pid : Nat) (t : Track) :
    List (Nat × List Track) :=
  (pid, membersOf m pid ++ [t]) :: m

/-- The search query main.py builds: trimmed track name, with the
trimmed artist name appended after a space when it is non-empty. -/
def queryOf (row : SourceRecord) : String :=
  if pyStrip (row.artistName.getD "") ≠ "" then
    pyStrip row.trackName ++ " " ++ pyStrip (row.artistName.getD "")
  else pyStrip row.trackName

/-- The unmatched entry main.py appends for a record: its trimmed
playlist, track and artist names. -/
def unmatchedOf (row : SourceRecord) : Unmatched :=
  ⟨pyStrip row.playlistName, pyStrip row.trackName, pyStrip (row.artistName.getD "")⟩

/-- Body of the per-record loop in add_songs_to_playlists: look up the
playlist by trimmed lowercased name (miss: report unmatched and move
on); fetch its current member tracks; search the catalog; no usable
tracks: report unmatched; first track already present by lowercased
name: skip; otherwise add it to the playlist. -/
def processRecord (search : String → SearchOutcome)
    (playlists : List (String × RemotePlaylist))
    (st : EngineState) (row : SourceRecord) : EngineState :=
  match dictLookup playlists (pyLower (pyStrip row.playlistName)) with
  | none => { st with notFound := st.notFound ++ [unmatchedOf row] }
  | some playlist =>
    match firstTrack (search (queryOf row)) with
    | none =>
      { st with notFound := st.notFound ++ [unmatchedOf row],
                events := st.events ++
                  [Event.fetchTracks playlist.id, Event.searchCall (queryOf row)] }
    | some track =>
      if pyLower track.name ∈ memberNamesLower st.members playlist.id then
        { st with events := st.events ++
            [Event.fetchTracks playlist.id, Event.searchCall (queryOf row)] }
      else
        { st with members := addMember st.members playlist.id track,
                  events := st.events ++
                    [Event.fetchTracks playlist.id, Event.searchCall (queryOf row),
                     Event.addCall playlist.id track] }

/-- The record iteration of add_songs_to_playlists. -/
def engineRun (search : String → SearchOutcome)
    (playlists : List (String × RemotePlaylist))
    (rows : List SourceRecord) (st : EngineState) : EngineState :=
  rows.foldl (processRecord search playlists) st

/-- Auxiliary pass of pandas Series.unique: distinct values in first
occurrence order. -/
def uniqueAux : List String → List String → List String
  | _, [] => []
  | seen, x :: xs =>
    if x ∈ seen then uniqueAux seen xs else x :: uniqueAux (x :: seen) xs

/-- song_data with the Playlist name column passed through unique(). -/
def uniqueKeepFirst (l : List String) : List String :=
  uniqueAux [] l

/-- Engine state at the start of a run: the remote membership as it
stands, no unmatched records, empty trace. -/
def initState (members0 : List (Nat × List Track)) : EngineState :=
  ⟨members0, [], []⟩

/-- add_songs_to_playlists from main.py: resolve or create a playlist
for each distinct raw Playlist name value, then process every record in
order. The final CSV write of not_found_tracks is the notFound field of
the resulting state. -/
def add_songs_to_playlists (search : String → SearchOutcome) (mkId : String → Nat)
    (userPlaylists : List RemotePlaylist) (members0 : List (Nat × List Track))
    (song_data : List SourceRecord) : EngineState :=
  engineRun search
    ((get_or_create_playlists mkId userPlaylists
        (uniqueKeepFirst (song_data.map SourceRecord.playlistName))).mapping)
    song_data (initState members0)

/-- A JSON scalar as used by the token file: a string or an integer. -/
inductive JVal where
  | str (s : String)
  | num (n : Int)
  deriving DecidableEq

/-- The four token fields of an authenticated session. The expiry is
the epoch timestamp already truncated to integer seconds, exactly what
int applied to the timestamp yields in save_token. -/
structure SessionTok where
  token_type : String
  access_token : String
  refresh_token : String
  expiry_time : Int
  deriving DecidableEq

/-- State of the token file as load_token distinguishes it: missing or
empty, present but unparseable, or a parsed JSON object. -/
inductive FileContent where
  | absent
  | corrupt
  | parsedObj (kvs : List (String × JVal))
  deriving DecidableEq

/-- save_token from main.py: serialize the four token fields as a JSON
object and overwrite the token file with it. -/
def save_token (s : SessionTok) : FileContent :=
  FileContent.parsedObj
    [("token_type", JVal.str s.token_type),
     ("access_token", JVal.str s.access_token),
     ("refresh_token", JVal.str s.refresh_token),
     ("expiry_time", JVal.num s.expiry_time)]

/-- Python key-membership test on a parsed JSON object. -/
def hasKeyJ (kvs : List (String × JVal)) (k : String) : Bool :=
  (dictLookup kvs k).isSome

/-- load_token from main.py: return the parsed object only when the
file exists non-empty, parses, and holds both an access_token and an
expiry_time key; otherwise None. -/
def load_token : FileContent → Option (List (String × JVal))
  | FileContent.absent => none
  | FileContent.corrupt => none
  | FileContent.parsedObj kvs =>
    if hasKeyJ kvs "access_token" && hasKeyJ kvs "expiry_time" then some kvs else none

/-- Concrete catalog for a two-record run against one playlist: two
different queries whose best match is the same track named Common. -/
def exSearchC1 : String → SearchOutcome := fun q =>
  if q = "Song1" then SearchOutcome.tracks [⟨100, "Common"⟩]
  else if q = "Song2" then SearchOutcome.tracks [⟨100, "Common"⟩]
  else SearchOutcome.tracks []

/-- Two records targeting the same playlist Gym. -/
def exRecordsC1 : List SourceRecord :=
  [⟨"Gym", "Song1", some ""⟩, ⟨"Gym", "Song2", some ""⟩]

/-- Full run of the import engine on exRecordsC1: the remote side has
one playlist Gym (id 1) that is initially empty. -/
def exRunC1 : EngineState :=
  add_songs_to_playlists exSearchC1 (fun _ => 99) [⟨"Gym", 1⟩] [] exRecordsC1

/-- Concrete catalog where each track name finds itself. -/
def exSearchC8 : String → SearchOutcome := fun q =>
  if q = "T1" then SearchOutcome.tracks [⟨1, "T1"⟩]
  else if q = "T2" then SearchOutcome.tracks [⟨2, "T2"⟩]
  else SearchOutcome.tracks []

/-- Two records whose raw playlist names differ only by a leading
space: Gym and space-Gym. -/
def exRecordsC8 : List SourceRecord :=
  [⟨"Gym", "T1", some ""⟩, ⟨" Gym", "T2", some ""⟩]

/-- Full run on exRecordsC8 against an account with no playlists: the
resolver creates a playlist for each of the two raw names (ids 10 and
11). -/
def exRunC8 : EngineState :=
  add_songs_to_playlists exSearchC8 (fun n => if n = "Gym" then 10 else 11) [] [] exRecordsC8

lemma dictLookup_eq_none_iff {α : Type} (m : List (String × α)) (k : String) :
    dictLookup m k = none ↔ k ∉ dictKeys m := by
  induction m with
  | nil => simp [dictLookup, dictKeys]
  | cons kv rest ih =>
    obtain ⟨k1, v⟩ := kv
    by_cases h : k = k1
    · simp [dictLookup, dictKeys, h]
    · simp [dictLookup, dictKeys, h, ih]

lemma mem_dictKeys_buildExisting_fold (ups : List RemotePlaylist) :
    ∀ (m : List (String × RemotePlaylist)) (k : String),
      k ∈ dictKeys (ups.foldl (fun m p => (pyLower p.name, p) :: m) m) ↔
        k ∈ dictKeys m ∨ k ∈ ups.map (fun p => pyLower p.name) := by
  induction ups with
  | nil => simp
  | cons p rest ih =>
    intro m k
    simp only [List.foldl_cons, List.map_cons, List.mem_cons]
    rw [ih]
    simp only [dictKeys, List.map_cons, List.mem_cons]
    tauto

lemma mem_dictKeys_buildExisting (ups : List RemotePlaylist) (k : String) :
    k ∈ dictKeys (buildExisting ups) ↔ k ∈ ups.map (fun p => pyLower p.name) := by
  have h := mem_dictKeys_buildExisting_fold ups [] k
  simpa [buildExisting, dictKeys] using h

lemma mem_dictKeys_gocpGo (mkId : String → Nat) (ex : List (String × RemotePlaylist)) :
    ∀ (names : List String) (acc : ResolveResult) (k : String),
      k ∈ dictKeys (gocpGo mkId ex names acc).mapping ↔
        k ∈ dictKeys acc.mapping ∨ k ∈ names.map pyLower := by
  intro names
  induction names with
  | nil => intro acc k; simp [gocpGo]
  | cons name rest ih =>
    intro acc k
    cases h : dictLookup ex (pyLower name) with
    | none =>
      simp only [gocpGo, h]
      rw [ih]
      simp only [dictKeys, List.map_cons, List.mem_cons]
      tauto
    | some p =>
      simp only [gocpGo, h]
      rw [ih]
      simp only [dictKeys, List.map_cons, List.mem_cons]
      tauto

lemma mem_created_gocpGo (mkId : String → Nat) (ex : List (String × RemotePlaylist)) :
    ∀ (names : List String) (acc : ResolveResult) (n : String),
      n ∈ (gocpGo mkId ex names acc).created →
        n ∈ acc.created ∨ (n ∈ names ∧ dictLookup ex (pyLower n) = none) := by
  intro names
  induction names with
  | nil => intro acc n h; exact Or.inl h
  | cons name rest ih =>
    intro acc n h
    cases hx : dictLookup ex (pyLower name) with
    | none =>
      simp only [gocpGo, hx] at h
      rcases ih _ n h with h1 | h2
      · rcases List.mem_append.mp h1 with h3 | h3
        · exact Or.inl h3
        · rcases List.mem_singleton.mp h3 with rfl
          exact Or.inr ⟨List.mem_cons_self _ _, hx⟩
      · exact Or.inr ⟨List.mem_cons_of_mem _ h2.1, h2.2⟩
    | some p =>
      simp only [gocpGo, hx] at h
      rcases ih _ n h with h1 | h2
      · exact Or.inl h1
      · exact Or.inr ⟨List.mem_cons_of_mem _ h2.1, h2.2⟩

lemma mem_uniqueAux : ∀ (l seen : List String) (x : String),
    x ∈ uniqueAux seen l ↔ x ∈ l ∧ x ∉ seen := by
  intro l
  induction l with
  | nil => intro seen x; simp [uniqueAux]
  | cons y ys ih =>
    intro seen x
    by_cases h : y ∈ seen
    · rw [uniqueAux, if_pos h, ih]
      constructor
      · rintro ⟨h1, h2⟩
        exact ⟨List.mem_cons_of_mem _ h1, h2⟩
      · rintro ⟨h1, h2⟩
        rcases List.mem_cons.mp h1 with rfl | h3
        · exact absurd h h2
        · exact ⟨h3, h2⟩
    · rw [uniqueAux, if_neg h]
      constructor
      · intro h1
        rcases List.mem_cons.mp h1 with rfl | h2
        · exact ⟨List.mem_cons_self _ _, h⟩
        · rcases (ih _ x).mp h2 with ⟨h3, h4⟩
          refine ⟨List.mem_cons_of_mem _ h3, fun hc => h4 (List.mem_cons_of_mem _ hc)⟩
      · rintro ⟨h1, h2⟩
        rcases List.mem_cons.mp h1 with rfl | h3
        · exact List.mem_cons_self _ _
        · by_cases hxy : x = y
          · exact hxy ▸ List.mem_cons_self _ _
          · refine List.mem_cons_of_mem _ ((ih _ x).mpr ⟨h3, ?_⟩)
            intro hc
            rcases List.mem_cons.mp hc with h4 | h4
            · exact hxy h4
            · exact h2 h4

lemma mem_map_uniqueKeepFirst (l : List String) (f : String → String) (k : String) :
    k ∈ (uniqueKeepFirst l).map f ↔ k ∈ l.map f := by
  simp only [List.mem_map, uniqueKeepFirst]
  constructor
  · rintro ⟨x, hx, rfl⟩
    exact ⟨x, ((mem_uniqueAux l [] x).mp hx).1, rfl⟩
  · rintro ⟨x, hx, rfl⟩
    exact ⟨x, (mem_uniqueAux l [] x).mpr ⟨hx, List.not_mem_nil x⟩, rfl⟩

lemma specDedupFirstSeen_cons (r : SourceRecord) (rs : List SourceRecord) :
    specDedupFirstSeen (r :: rs) =
      r :: specDedupFirstSeen (rs.filter (fun x => decide (x.trackName ≠ r.trackName))) := by
  rw [specDedupFirstSeen]

lemma dropDupAux_eq_spec : ∀ (rows : List SourceRecord) (seen : List String),
    dropDupAux seen rows =
      specDedupFirstSeen (rows.filter (fun r => decide (r.trackName ∉ seen))) := by
  intro rows
  induction rows with
  | nil => intro seen; simp [dropDupAux, specDedupFirstSeen]
  | cons r rs ih =>
    intro seen
    by_cases h : r.trackName ∈ seen
    · rw [dropDupAux, if_pos h, List.filter_cons]
      have hd : (decide (r.trackName ∉ seen)) = false := by simp [h]
      rw [hd, if_neg Bool.false_ne_true]
      exact ih seen
    · rw [dropDupAux, if_neg h, List.filter_cons]
      have hd : (decide (r.trackName ∉ seen)) = true := by simp [h]
      rw [hd, if_pos rfl]
      rw [specDedupFirstSeen_cons]
      congr 1
      rw [ih (r.trackName :: seen), List.filter_filter]
      apply congrArg
      apply List.filter_congr
      intro x _
      simp [List.mem_cons, not_or]

lemma processRecord_miss (search : String → SearchOutcome)
    (playlists : List (String × RemotePlaylist)) (st : EngineState) (row : SourceRecord)
    (h : dictLookup playlists (pyLower (pyStrip row.playlistName)) = none) :
    processRecord search playlists st row =
      { st with notFound := st.notFound ++ [unmatchedOf row] } := by
  simp [processRecord, h]

lemma processRecord_noTrack (search : String → SearchOutcome)
    (playlists : List (String × RemotePlaylist)) (st : EngineState) (row : SourceRecord)
    (p : RemotePlaylist)
    (hp : dictLookup playlists (pyLower (pyStrip row.playlistName)) = some p)
    (hs : firstTrack (search (queryOf row)) = none) :
    processRecord search playlists st row =
      { st with notFound := st.notFound ++ [unmatchedOf row],
                events := st.events ++
                  [Event.fetchTracks p.id, Event.searchCall (queryOf row)] } := by
  simp [processRecord, hp, hs]

lemma processRecord_dup (search : String → SearchOutcome)
    (playlists : List (String × RemotePlaylist)) (st : EngineState) (row : SourceRecord)
    (p : RemotePlaylist) (t : Track)
    (hp : dictLookup playlists (pyLower (pyStrip row.playlistName)) = some p)
    (ht : firstTrack (search (queryOf row)) = some t)
    (hm : pyLower t.name ∈ memberNamesLower st.members p.id) :
    processRecord search playlists st row =
      { st with events := st.events ++
          [Event.fetchTracks p.id, Event.searchCall (queryOf row)] } := by
  simp [processRecord, hp, ht, hm]

lemma processRecord_add (search : String → SearchOutcome)
    (playlists : List (String × RemotePlaylist)) (st : EngineState) (row : SourceRecord)
    (p : RemotePlaylist) (t : Track)
    (hp : dictLookup playlists (pyLower (pyStrip row.playlistName)) = some p)
    (ht : firstTrack (search (queryOf row)) = some t)
    (hm : pyLower t.name ∉ memberNamesLower st.members p.id) :
    processRecord search playlists st row =
      { st with members := addMember st.members p.id t,
                events := st.events ++
                  [Event.fetchTracks p.id, Event.searchCall (queryOf row),
                   Event.addCall p.id t] } := by
  simp [processRecord, hp, ht, hm]

lemma engineRun_nil (search : String → SearchOutcome)
    (playlists : List (String × RemotePlaylist)) (st : EngineState) :
    engineRun search playlists [] st = st := rfl

lemma engineRun_cons (search : String → SearchOutcome)
    (playlists : List (String × RemotePlaylist)) (r : SourceRecord)
    (rs : List SourceRecord) (st : EngineState) :
    engineRun search playlists (r :: rs) st =
      engineRun search playlists rs (processRecord search playlists st r) := rfl

lemma processRecord_newEvents_add (search : String → SearchOutcome)
    (playlists : List (String × RemotePlaylist)) (st : EngineState) (row : SourceRecord)
    (pid : Nat) (t : Track)
    (h : Event.addCall pid t ∈
      (processRecord search playlists st row).events.drop st.events.length) :
    pyLower t.name ∉ memberNamesLower st.members pid := by
  cases hp : dictLookup playlists (pyLower (pyStrip row.playlistName)) with
  | none =>
    rw [processRecord_miss search playlists st row hp] at h
    simp [List.drop_length] at h
  | some p =>
    cases ht : firstTrack (search (queryOf row)) with
    | none =>
      rw [processRecord_noTrack search playlists st row p hp ht] at h
      simp [List.drop_left] at h
    | some track =>
      by_cases hm : pyLower track.name ∈ memberNamesLower st.members p.id
      · rw [processRecord_dup search playlists st row p track hp ht hm] at h
        simp [List.drop_left] at h
      · rw [processRecord_add search playlists st row p track hp ht hm] at h
        simp [List.drop_left] at h
        obtain ⟨h1, h2⟩ := h
        subst h1
        subst h2
        exact hm

example : pyStrip "  a b " = "a b" := by decide
example : pyLower " GyM" = " gym" := by decide
example :
    load_library [⟨"P", "A", some "x"⟩, ⟨"P", "B", none⟩] [⟨"Q", "A", some "y"⟩]
      = [⟨"P", "A", some "x"⟩, ⟨"P", "B", none⟩] := by decide

/-- Claim C2: the merged record set produced by the library loader
equals the concatenation of the two input row sequences (first file's
rows, then second file's rows) with every row whose Track name equals
the Track name of an earlier row removed: the first occurrence by read
order wins, survivors keep their first-seen relative order, and later
duplicates are dropped regardless of source file. -/
theorem c2_merge_dedup_first_seen (tidal_rows spotify_rows : List SourceRecord) :
    load_library tidal_rows spotify_rows =
      specDedupFirstSeen (tidal_rows ++ spotify_rows) := by
  rw [load_library, dropDuplicatesByTrackName, dropDupAux_eq_spec]
  apply congrArg
  exact List.filter_eq_self.mpr (fun a _ => by simp)

/-- Claim C3: for every server id assignment, every list of existing
remote playlists and every requested name list, the resolver returns a
mapping whose key set is exactly the lowercased requested names, and it
invokes playlist creation only for requested names whose lowercased
form is not among the lowercased names of the existing remote
playlists. -/
theorem c3_resolver_keys_and_creation (mkId : String → Nat)
    (userPlaylists : List RemotePlaylist) (names : List String) :
    (∀ k, k ∈ dictKeys (get_or_create_playlists mkId userPlaylists names).mapping ↔
        k ∈ names.map pyLower) ∧
    (∀ n, n ∈ (get_or_create_playlists mkId userPlaylists names).created →
        n ∈ names ∧ pyLower n ∉ userPlaylists.map (fun p => pyLower p.name)) := by
  constructor
  · intro k
    rw [get_or_create_playlists, mem_dictKeys_gocpGo]
    simp [dictKeys]
  · intro n hn
    rw [get_or_create_playlists] at hn
    rcases mem_created_gocpGo mkId _ names ⟨[], []⟩ n hn with h1 | ⟨h2, h3⟩
    · simp at h1
    · refine ⟨h2, ?_⟩
      rw [dictLookup_eq_none_iff] at h3
      intro hc
      exact h3 ((mem_dictKeys_buildExisting userPlaylists (pyLower n)).mpr hc)

/-- Witness for claim C3 at a concrete input: requesting Gym against an
account owning only Rock puts key gym into the mapping. -/
theorem c3_resolver_keys_and_creation_witness :
    "gym" ∈ dictKeys (get_or_create_playlists (fun _ => 7) [⟨"Rock", 5⟩] ["Gym"]).mapping :=
  ((c3_resolver_keys_and_creation (fun _ => 7) [⟨"Rock", 5⟩] ["Gym"]).1 "gym").mpr (by decide)

/-- Claim C4: for a record whose trimmed lowercased playlist name is
absent from the resolved mapping, the engine's per-record step appends
exactly one unmatched entry (the playlist-not-found branch) holding the
record's trimmed fields, and changes nothing else: in particular the
event trace is unchanged, so no catalog search and no add call occur
for that record. -/
theorem c4_playlist_not_found (search : String → SearchOutcome)
    (playlists : List (String × RemotePlaylist)) (st : EngineState) (row : SourceRecord)
    (h : dictLookup playlists (pyLower (pyStrip row.playlistName)) = none) :
    processRecord search playlists st row =
      { st with notFound := st.notFound ++ [unmatchedOf row] } :=
  processRecord_miss search playlists st row h

/-- Witness for claim C4 at a concrete input: an empty mapping makes the
record unmatched with no events. -/
theorem c4_playlist_not_found_witness :
    dictLookup ([] : List (String × RemotePlaylist)) (pyLower (pyStrip "Gym")) = none ∧
    processRecord (fun _ => SearchOutcome.tracks []) [] (initState [])
        ⟨"Gym", "T", some ""⟩ = ⟨[], [⟨"Gym", "T", ""⟩], []⟩ := by
  refine ⟨by decide, ?_⟩
  rw [c4_playlist_not_found (fun _ => SearchOutcome.tracks []) [] (initState [])
    ⟨"Gym", "T", some ""⟩ (by decide)]
  decide

/-- Claim C5: for a record whose playlist resolves but whose catalog
search yields no tracks category or an empty tracks list, the engine
appends exactly one unmatched entry (the track-not-found branch) and
performs no add call: the only events of the record are the membership
fetch and the search itself, and the membership state is unchanged. -/
theorem c5_track_not_found (search : String → SearchOutcome)
    (playlists : List (String × RemotePlaylist)) (st : EngineState) (row : SourceRecord)
    (p : RemotePlaylist)
    (hp : dictLookup playlists (pyLower (pyStrip row.playlistName)) = some p)
    (hs : search (queryOf row) = SearchOutcome.noTracksKey ∨
      search (queryOf row) = SearchOutcome.tracks []) :
    processRecord search playlists st row =
      { st with notFound := st.notFound ++ [unmatchedOf row],
                events := st.events ++
                  [Event.fetchTracks p.id, Event.searchCall (queryOf row)] } := by
  have hft : firstTrack (search (queryOf row)) = none := by
    rcases hs with h | h <;> rw [h] <;> rfl
  exact processRecord_noTrack search playlists st row p hp hft

/-- Witness for claim C5 at a concrete input: a search with no tracks
key leaves one unmatched entry and only fetch and search events. -/
theorem c5_track_not_found_witness :
    ((fun _ : String => SearchOutcome.noTracksKey) (queryOf ⟨"Gym", "T", some ""⟩) =
      SearchOutcome.noTracksKey) ∧
    processRecord (fun _ => SearchOutcome.noTracksKey) [("gym", ⟨"Gym", 1⟩)]
        (initState []) ⟨"Gym", "T", some ""⟩ =
      ⟨[], [⟨"Gym", "T", ""⟩], [Event.fetchTracks 1, Event.searchCall "T"]⟩ := by
  refine ⟨rfl, ?_⟩
  rw [c5_track_not_found (fun _ => SearchOutcome.noTracksKey) [("gym", ⟨"Gym", 1⟩)]
    (initState []) ⟨"Gym", "T", some ""⟩ ⟨"Gym", 1⟩ (by decide) (Or.inl rfl)]
  decide

/-- Claim C6: for a record whose playlist resolves and whose search
succeeds with a first track whose lowercased name is already in the
playlist's fetched track-name set, the engine performs no add call and
appends no unmatched entry: the state gains only the fetch and search
events. -/
theorem c6_skip_already_present (search : String → SearchOutcome)
    (playlists : List (String × RemotePlaylist)) (st : EngineState) (row : SourceRecord)
    (p : RemotePlaylist) (t : Track)
    (hp : dictLookup playlists (pyLower (pyStrip row.playlistName)) = some p)
    (ht : firstTrack (search (queryOf row)) = some t)
    (hm : pyLower t.name ∈ memberNamesLower st.members p.id) :
    processRecord search playlists st row =
      { st with events := st.events ++
          [Event.fetchTracks p.id, Event.searchCall (queryOf row)] } :=
  processRecord_dup search playlists st row p t hp ht hm

/-- Witness for claim C6 at a concrete input: the matched track T is
already in the playlist, so nothing but fetch and search happens. -/
theorem c6_skip_already_present_witness :
    pyLower (Track.name ⟨7, "T"⟩) ∈
      memberNamesLower (EngineState.members ⟨[(1, [⟨5, "T"⟩])], [], []⟩) 1 ∧
    processRecord (fun _ => SearchOutcome.tracks [⟨7, "T"⟩]) [("gym", ⟨"Gym", 1⟩)]
        ⟨[(1, [⟨5, "T"⟩])], [], []⟩ ⟨"Gym", "T", some ""⟩ =
      ⟨[(1, [⟨5, "T"⟩])], [], [Event.fetchTracks 1, Event.searchCall "T"]⟩ := by
  refine ⟨by decide, ?_⟩
  rw [c6_skip_already_present (fun _ => SearchOutcome.tracks [⟨7, "T"⟩])
    [("gym", ⟨"Gym", 1⟩)] ⟨[(1, [⟨5, "T"⟩])], [], []⟩ ⟨"Gym", "T", some ""⟩
    ⟨"Gym", 1⟩ ⟨7, "T"⟩ (by decide) (by decide) (by decide)]
  decide

/-- Claim C7: saving a session's token via save_token and then loading
via load_token yields a present record carrying the same token type,
access token, refresh token, and expiry timestamp (the epoch value in
integer seconds). -/
theorem c7_token_round_trip (s : SessionTok) :
    ∃ kvs, load_token (save_token s) = some kvs ∧
      dictLookup kvs "token_type" = some (JVal.str s.token_type) ∧
      dictLookup kvs "access_token" = some (JVal.str s.access_token) ∧
      dictLookup kvs "refresh_token" = some (JVal.str s.refresh_token) ∧
      dictLookup kvs "expiry_time" = some (JVal.num s.expiry_time) :=
  ⟨_, rfl, rfl, rfl, rfl, rfl⟩

/-- Claim C1 counterexample: on a run with two records targeting the one
existing playlist Gym (id 1), the event trace shows the playlist's track
list fetched twice, once per record, not once per distinct playlist; and
the second record's duplicate check reflects the addition made by the
first record: the track Common added by record one suppresses the add
for record two, so only one add call appears. -/
theorem c1_fetch_once_counterexample :
    exRunC1.events =
      [Event.fetchTracks 1, Event.searchCall "Song1", Event.addCall 1 ⟨100, "Common"⟩,
       Event.fetchTracks 1, Event.searchCall "Song2"] ∧
    exRunC1.events.count (Event.fetchTracks 1) = 2 ∧
    exRunC1.events.count (Event.addCall 1 ⟨100, "Common"⟩) = 1 := by decide

/-- Claim C1 (amended): the current track list of the target playlist is
fetched during every record's processing — once per record whose
playlist resolves, not once per distinct playlist — and the duplicate
check for a record uses the membership state current when that record is
processed, which reflects the additions made by all earlier records of
the same run. -/
theorem c1_fetch_per_record (search : String → SearchOutcome)
    (playlists : List (String × RemotePlaylist)) (st0 : EngineState)
    (pre : List SourceRecord) (row : SourceRecord) (p : RemotePlaylist) (t : Track)
    (hp : dictLookup playlists (pyLower (pyStrip row.playlistName)) = some p)
    (ht : firstTrack (search (queryOf row)) = some t) :
    processRecord search playlists (engineRun search playlists pre st0) row =
      (if pyLower t.name ∈
          memberNamesLower (engineRun search playlists pre st0).members p.id then
        { engineRun search playlists pre st0 with
            events := (engineRun search playlists pre st0).events ++
              [Event.fetchTracks p.id, Event.searchCall (queryOf row)] }
      else
        { engineRun search playlists pre st0 with
            members := addMember (engineRun search playlists pre st0).members p.id t,
            events := (engineRun search playlists pre st0).events ++
              [Event.fetchTracks p.id, Event.searchCall (queryOf row),
               Event.addCall p.id t] }) := by
  by_cases hm : pyLower t.name ∈
      memberNamesLower (engineRun search playlists pre st0).members p.id
  · rw [if_pos hm]
    exact processRecord_dup search playlists _ row p t hp ht hm
  · rw [if_neg hm]
    exact processRecord_add search playlists _ row p t hp ht hm

/-- Witness for the amended claim C1 at a concrete input: after the
first record adds Common to playlist 1, the second record fetches again
and skips the add. -/
theorem c1_fetch_per_record_witness :
    processRecord exSearchC1 [("gym", ⟨"Gym", 1⟩)]
        (engineRun exSearchC1 [("gym", ⟨"Gym", 1⟩)] [⟨"Gym", "Song1", some ""⟩]
          (initState []))
        ⟨"Gym", "Song2", some ""⟩ =
      ⟨[(1, [⟨100, "Common"⟩])], [],
       [Event.fetchTracks 1, Event.searchCall "Song1", Event.addCall 1 ⟨100, "Common"⟩,
        Event.fetchTracks 1, Event.searchCall "Song2"]⟩ := by
  rw [c1_fetch_per_record exSearchC1 [("gym", ⟨"Gym", 1⟩)] (initState [])
    [⟨"Gym", "Song1", some ""⟩] ⟨"Gym", "Song2", some ""⟩ ⟨"Gym", 1⟩ ⟨100, "Common"⟩
    (by decide) (by decide)]
  decide

lemma pyStrip_empty : pyStrip "" = "" := by decide

lemma processRecord_artistNone (search : String → SearchOutcome)
    (playlists : List (String × RemotePlaylist)) (st : EngineState) (row : SourceRecord)
    (h : row.artistName = none) :
    (∀ e ∈ (processRecord search playlists st row).notFound,
        e ∈ st.notFound ∨ e.artistName = "") ∧
    (∀ q, Event.searchCall q ∈ (processRecord search playlists st row).events →
        Event.searchCall q ∈ st.events ∨ q = pyStrip row.trackName) := by
  have hq : queryOf row = pyStrip row.trackName := by
    rw [queryOf, h]
    simp [pyStrip_empty]
  have hu : (unmatchedOf row).artistName = "" := by
    simp [unmatchedOf, h, pyStrip_empty]
  cases hp : dictLookup playlists (pyLower (pyStrip row.playlistName)) with
  | none =>
    rw [processRecord_miss search playlists st row hp]
    constructor
    · intro e he
      simp only [List.mem_append, List.mem_singleton] at he
      rcases he with h1 | h2
      · exact Or.inl h1
      · exact Or.inr (h2 ▸ hu)
    · intro q hq2
      exact Or.inl hq2
  | some p =>
    cases ht : firstTrack (search (queryOf row)) with
    | none =>
      rw [processRecord_noTrack search playlists st row p hp ht]
      constructor
      · intro e he
        simp only [List.mem_append, List.mem_singleton] at he
        rcases he with h1 | h2
        · exact Or.inl h1
        · exact Or.inr (h2 ▸ hu)
      · intro q hq2
        simp only [List.mem_append, List.mem_cons, List.not_mem_nil, or_false] at hq2
        rcases hq2 with h1 | h2 | h3
        · exact Or.inl h1
        · exact absurd h2 (by simp)
        · rcases Event.searchCall.inj h3 with rfl
          exact Or.inr hq
    | some track =>
      by_cases hm : pyLower track.name ∈ memberNamesLower st.members p.id
      · rw [processRecord_dup search playlists st row p track hp ht hm]
        constructor
        · intro e he
          exact Or.inl he
        · intro q hq2
          simp only [List.mem_append, List.mem_cons, List.not_mem_nil, or_false] at hq2
          rcases hq2 with h1 | h2 | h3
          · exact Or.inl h1
          · exact absurd h2 (by simp)
          · rcases Event.searchCall.inj h3 with rfl
            exact Or.inr hq
      · rw [processRecord_add search playlists st row p track hp ht hm]
        constructor
        · intro e he
          exact Or.inl he
        · intro q hq2
          simp only [List.mem_append, List.mem_cons, List.not_mem_nil, or_false] at hq2
          rcases hq2 with h1 | h2 | h3 | h4
          · exact Or.inl h1
          · exact absurd h2 (by simp)
          · rcases Event.searchCall.inj h3 with rfl
            exact Or.inr hq
          · exact absurd h4 (by simp)

/-- Claim C8 counterexample: with records Gym and space-Gym, the second
record's playlist name carries leading whitespace, yet its lookup hits
the entry keyed gym (resolved for the first record's raw name), so it is
not reported unmatched: the run ends with an empty unmatched list and
the second record's track is added to playlist 10, the one created for
the name Gym, not to playlist 11 created for its own raw name. -/
theorem c8_untrimmed_counterexample :
    pyStrip " Gym" ≠ " Gym" ∧
    exRunC8.notFound = [] ∧
    exRunC8.events =
      [Event.fetchTracks 10, Event.searchCall "T1", Event.addCall 10 ⟨1, "T1"⟩,
       Event.fetchTracks 10, Event.searchCall "T2", Event.addCall 10 ⟨2, "T2"⟩] := by
  decide

/-- Claim C8 (amended): the resolved mapping is keyed by the lowercased
but untrimmed distinct playlist names, while the per-record lookup uses
the trimmed lowercased name; therefore every record whose playlist name
carries leading or trailing whitespace, and whose trimmed lowercased
name is not the lowercased form of any record's raw playlist name,
misses the mapping and is reported unmatched (playlist not found, no
search and no add events), even though the mapping does contain an
entry for the record's own lowercased untrimmed name. When some
record's raw name does lowercase to the trimmed form, the lookup hits
that entry instead, as the counterexample shows. -/
theorem c8_whitespace_playlist_miss (mkId : String → Nat)
    (userPlaylists : List RemotePlaylist)
    (records : List SourceRecord) (row : SourceRecord)
    (hrow : row ∈ records)
    (hws : pyStrip row.playlistName ≠ row.playlistName)
    (hnot : pyLower (pyStrip row.playlistName) ∉
      records.map (fun r => pyLower r.playlistName)) :
    pyLower row.playlistName ∈
      dictKeys (get_or_create_playlists mkId userPlaylists
        (uniqueKeepFirst (records.map SourceRecord.playlistName))).mapping ∧
    ∀ (search : String → SearchOutcome) (st : EngineState),
      processRecord search
          ((get_or_create_playlists mkId userPlaylists
            (uniqueKeepFirst (records.map SourceRecord.playlistName))).mapping)
          st row =
        { st with notFound := st.notFound ++ [unmatchedOf row] } := by
  constructor
  · rw [get_or_create_playlists, mem_dictKeys_gocpGo]
    right
    rw [mem_map_uniqueKeepFirst, List.map_map]
    exact List.mem_map_of_mem _ hrow
  · intro search st
    apply processRecord_miss
    rw [dictLookup_eq_none_iff]
    intro hc
    rw [get_or_create_playlists, mem_dictKeys_gocpGo] at hc
    rcases hc with h1 | h2
    · simp [dictKeys] at h1
    · rw [mem_map_uniqueKeepFirst, List.map_map] at h2
      exact hnot (by simpa [Function.comp] using h2)

/-- Witness for the amended claim C8 at a concrete input: the single
record space-Gym gets a playlist created for its raw name but is still
reported unmatched, since its trimmed lookup key gym is absent. -/
theorem c8_whitespace_playlist_miss_witness :
    ((⟨" Gym", "T", some ""⟩ : SourceRecord) ∈
      [(⟨" Gym", "T", some ""⟩ : SourceRecord)]) ∧
    pyStrip " Gym" ≠ " Gym" ∧
    processRecord (fun _ => SearchOutcome.tracks [])
        ((get_or_create_playlists (fun _ => 5) []
          (uniqueKeepFirst
            ([(⟨" Gym", "T", some ""⟩ : SourceRecord)].map SourceRecord.playlistName))).mapping)
        (initState []) ⟨" Gym", "T", some ""⟩ =
      ⟨[], [⟨"Gym", "T", ""⟩], []⟩ := by
  refine ⟨by decide, by decide, ?_⟩
  rw [(c8_whitespace_playlist_miss (fun _ => 5) [] [⟨" Gym", "T", some ""⟩]
    ⟨" Gym", "T", some ""⟩ (by decide) (by decide) (by decide)).2
    (fun _ => SearchOutcome.tracks []) (initState [])]
  decide

/-- Claim C9: within one run, whenever processing a record issues an add
call of track t to playlist pid, the lowercased name of t is not among
the lowercased member names of that playlist in the engine state current
at that record, a state that already reflects the additions made by all
earlier records of the run (the membership listing is fetched afresh
during each record's processing). -/
theorem c9_no_duplicate_add (search : String → SearchOutcome)
    (playlists : List (String × RemotePlaylist)) (st0 : EngineState)
    (pre : List SourceRecord) (row : SourceRecord) (pid : Nat) (t : Track)
    (h : Event.addCall pid t ∈
      (processRecord search playlists (engineRun search playlists pre st0) row).events.drop
        (engineRun search playlists pre st0).events.length) :
    pyLower t.name ∉
      memberNamesLower (engineRun search playlists pre st0).members pid :=
  processRecord_newEvents_add search playlists _ row pid t h

/-- Witness for claim C9 at a concrete input: the sole record adds track
T to the empty playlist 1, whose member list indeed lacks t. -/
theorem c9_no_duplicate_add_witness :
    (Event.addCall 1 ⟨7, "T"⟩ ∈
      (processRecord (fun _ => SearchOutcome.tracks [⟨7, "T"⟩]) [("gym", ⟨"Gym", 1⟩)]
        (engineRun (fun _ => SearchOutcome.tracks [⟨7, "T"⟩]) [("gym", ⟨"Gym", 1⟩)] []
          (initState [])) ⟨"Gym", "T", some ""⟩).events.drop
        (engineRun (fun _ => SearchOutcome.tracks [⟨7, "T"⟩]) [("gym", ⟨"Gym", 1⟩)] []
          (initState [])).events.length) ∧
    pyLower (Track.name ⟨7, "T"⟩) ∉
      memberNamesLower (engineRun (fun _ => SearchOutcome.tracks [⟨7, "T"⟩])
        [("gym", ⟨"Gym", 1⟩)] [] (initState [])).members 1 :=
  ⟨by decide,
    c9_no_duplicate_add (fun _ => SearchOutcome.tracks [⟨7, "T"⟩]) [("gym", ⟨"Gym", 1⟩)]
      (initState []) [] ⟨"Gym", "T", some ""⟩ 1 ⟨7, "T"⟩ (by decide)⟩

/-- Claim C10: when the merged record set has no Artist name column at
all (every record's artist cell is the row.get default), each record is
processed with an empty artist name: every catalog search issued by the
run queries exactly some record's trimmed track name alone, and every
unmatched entry produced by the run carries an empty Artist Name. -/
theorem c10_missing_artist_column (search : String → SearchOutcome)
    (playlists : List (String × RemotePlaylist)) (records : List SourceRecord)
    (st0 : EngineState)
    (h : ∀ r ∈ records, r.artistName = none) :
    (∀ e ∈ (engineRun search playlists records st0).notFound,
        e ∈ st0.notFound ∨ e.artistName = "") ∧
    (∀ q, Event.searchCall q ∈ (engineRun search playlists records st0).events →
        Event.searchCall q ∈ st0.events ∨ ∃ r ∈ records, q = pyStrip r.trackName) := by
  revert h
  induction records generalizing st0 with
  | nil =>
    intro h
    exact ⟨fun e he => Or.inl he, fun q hq => Or.inl hq⟩
  | cons r rs ih =>
    intro h
    rw [engineRun_cons]
    have hstep := processRecord_artistNone search playlists st0 r
      (h r (List.mem_cons_self r rs))
    have hrec := ih (processRecord search playlists st0 r)
      (fun x hx => h x (List.mem_cons_of_mem r hx))
    constructor
    · intro e he
      rcases hrec.1 e he with h1 | h2
      · rcases hstep.1 e h1 with h3 | h4
        · exact Or.inl h3
        · exact Or.inr h4
      · exact Or.inr h2
    · intro q hq2
      rcases hrec.2 q hq2 with h1 | h2
      · rcases hstep.2 q h1 with h3 | h4
        · exact Or.inl h3
        · exact Or.inr ⟨r, List.mem_cons_self r rs, h4⟩
      · obtain ⟨x, hx, hxq⟩ := h2
        exact Or.inr ⟨x, List.mem_cons_of_mem r hx, hxq⟩

/-- Witness for claim C10 at a concrete input: a run over one record
with no artist cell leaves only unmatched entries with empty artist. -/
theorem c10_missing_artist_column_witness :
    (∀ r ∈ [(⟨"Gym", "T", none⟩ : SourceRecord)], r.artistName = none) ∧
    (∀ e ∈ (engineRun (fun _ => SearchOutcome.tracks []) [("gym", ⟨"Gym", 1⟩)]
        [⟨"Gym", "T", none⟩] (initState [])).notFound,
      e ∈ (initState []).notFound ∨ e.artistName = "") :=
  ⟨by decide,
    (c10_missing_artist_column (fun _ => SearchOutcome.tracks []) [("gym", ⟨"Gym", 1⟩)]
      [⟨"Gym", "T", none⟩] (initState []) (by decide)).1⟩
